import Mathlib

/-!
Verification of the customer segmentation data-preparation pipeline
(`src/data_preparation.py`).

The script is a linear batch pipeline: connect to a database, fetch a
tabular result set, clean it (`clean_data`), derive analytic features
(`add_derived_features`), export to CSV and print summary statistics
(`main`).  This file gives a shallow embedding of that pipeline:

* a table is a list of rows plus a schema recording which named columns
  are present (pandas raises `KeyError` when an absent column is
  accessed, which we model with an `Except` error);
* numeric columns are embedded as exact rationals `Rat`;
* date cells are `null` (pandas `NaT`), unparsed `raw` text, or a
  `parsed` day number; `pd.to_datetime` with its default `errors`
  setting raises on an unparseable value, modelled as an `Except` error;
* `datetime.now()` is an ambient-clock read; `add_derived_features`
  performs two such reads (line 98 and line 101 of the source), which
  the embedding makes explicit as the two parameters `now1` and `now2`;
* exceptions escaping a function are modelled by `Except PyError`.

Because the core `Rat` arithmetic operations of this toolchain are
`@[irreducible]` (so closed tables cannot be evaluated by `decide`
through them), the embedding computes with kernel-reducible wrappers
`radd`, `rsub`, `rmul`, `rdiv`, `rmin` built on `Rat.divInt`, each
proved equal to the standard operation.
-/

namespace CustomerSeg

/-- A Python exception escaping a pipeline function. -/
inductive PyError where
  | keyError (col : String)
  | typeError (col : String)
  | parseError (col : String)
  | valueError (msg : String)
deriving DecidableEq, Repr

/-- One cell of a date column: pandas `NaT`, raw unparsed text, or a
parsed datetime (represented by its day number). -/
inductive DateCell where
  | null
  | raw (s : String)
  | parsed (d : Int)
deriving DecidableEq, Repr

def DateCell.isRaw : DateCell → Bool
  | .raw _ => true
  | _ => false

def DateCell.isNull : DateCell → Bool
  | .null => true
  | _ => false

/-- The day number of a parsed date cell, `none` for `NaT` or raw text. -/
def DateCell.days : DateCell → Option Int
  | .parsed d => some d
  | _ => none

/-- One customer record row.  The first block are the input columns of
the segmentation query; the second block are the columns created by the
pipeline (absent, i.e. `none`, until the corresponding stage runs). -/
structure Row where
  customerID : Int
  age : Option Rat
  gender : Option String
  location : Option String
  joinDate : DateCell
  lastPurchaseDate : DateCell
  firstPurchaseDate : DateCell
  monetary : Rat
  frequency : Nat
  customerLifetimeDays : Rat
  purchaseFrequencyRate : Rat
  customerSegment : String
  activityStatus : String
  recency : Rat
  monetaryCapped : Option Rat := none
  tenureMonths : Option Int := none
  daysSinceLastPurchase : Option Int := none
  avgDaysBetweenPurchases : Option Rat := none
  ageGroup : Option String := none
  revenueTier : Option String := none
  estimatedCLV : Option Rat := none
deriving DecidableEq, Repr

/-- Which named columns are present in the fetched table.  Accessing an
absent column raises `KeyError` in pandas. -/
structure Schema where
  hasCustomerID : Bool := true
  hasAge : Bool := true
  hasGender : Bool := true
  hasLocation : Bool := true
  hasJoinDate : Bool := true
  hasLastPurchaseDate : Bool := true
  hasFirstPurchaseDate : Bool := true
  hasMonetary : Bool := true
  hasFrequency : Bool := true
  hasCustomerLifetimeDays : Bool := true
  hasPurchaseFrequencyRate : Bool := true
  hasCustomerSegment : Bool := true
  hasActivityStatus : Bool := true
  hasRecency : Bool := true
deriving DecidableEq, Repr

/-- A pandas data frame: a schema of present columns and a list of rows. -/
structure Table where
  schema : Schema
  rows : List Row
deriving DecidableEq, Repr

instance exceptDecEq {ε α : Type} [DecidableEq ε] [DecidableEq α] : DecidableEq (Except ε α)
  | .error e, .error f =>
    if h : e = f then isTrue (by rw [h]) else isFalse (by intro hh; cases hh; exact h rfl)
  | .error _, .ok _ => isFalse (by intro h; cases h)
  | .ok _, .error _ => isFalse (by intro h; cases h)
  | .ok a, .ok b =>
    if h : a = b then isTrue (by rw [h]) else isFalse (by intro hh; cases hh; exact h rfl)

/-! ### Kernel-reducible rational arithmetic -/

def radd (a b : Rat) : Rat :=
  Rat.divInt (a.num * (b.den : Int) + b.num * (a.den : Int)) ((a.den : Int) * (b.den : Int))

def rsub (a b : Rat) : Rat :=
  Rat.divInt (a.num * (b.den : Int) - b.num * (a.den : Int)) ((a.den : Int) * (b.den : Int))

def rmul (a b : Rat) : Rat :=
  Rat.divInt (a.num * b.num) ((a.den : Int) * (b.den : Int))

def rdiv (a b : Rat) : Rat :=
  Rat.divInt (a.num * (b.den : Int)) (b.num * (a.den : Int))

def rmin (a b : Rat) : Rat := if a ≤ b then a else b

/-- Floor of a nonnegative rational, as a natural number. -/
def ratFloorNat (q : Rat) : Nat := (q.num.tdiv (q.den : Int)).toNat

/-! ### Statistics helpers (pandas `median` and `quantile`) -/

/-- Pandas `Series.median` over the non-null values: sort ascending and
take the middle element, or the mean of the two middle elements; `NaN`
(here `none`) on an empty series. -/
def medianOpt (xs : List Rat) : Option Rat :=
  let s := List.insertionSort (· ≤ ·) xs
  let n := s.length
  if n = 0 then none
  else if n % 2 = 1 then s[n / 2]?
  else
    match s[n / 2 - 1]?, s[n / 2]? with
    | some a, some b => some (rdiv (radd a b) 2)
    | _, _ => none

/-- Pandas `Series.quantile q` with the default linear interpolation:
with the values sorted ascending, the result sits at position
`q * (n - 1)`, linearly interpolated between the two neighbouring
values; `NaN` (here `none`) on an empty series. -/
def quantileLinear (xs : List Rat) (q : Rat) : Option Rat :=
  let s := List.insertionSort (· ≤ ·) xs
  let n := s.length
  if n = 0 then none
  else
    let pos := rmul q (((n - 1 : Nat) : Rat))
    let i := ratFloorNat pos
    let frac := rsub pos ((i : Nat) : Rat)
    match s[i]?, s[i + 1]? with
    | some a, some b => some (radd a (rmul frac (rsub b a)))
    | some a, none => some a
    | none, _ => none

/-! ### Cleaning stage (`clean_data`, source lines 65-90) -/

/-- Digits of a decimal numeral, accumulated left to right. -/
def parseNatAux (acc : Nat) : List Char → Option Nat
  | [] => some acc
  | c :: cs => if c.isDigit then parseNatAux (acc * 10 + (c.toNat - 48)) cs else none

/-- A nonempty all-digit character list as a natural number. -/
def parseNatChars : List Char → Option Nat
  | [] => none
  | cs => parseNatAux 0 cs

/-- Split a character list on `-`. -/
def splitDashAux (cur : List Char) : List Char → List (List Char)
  | [] => [cur.reverse]
  | c :: cs => if c = '-' then cur.reverse :: splitDashAux [] cs else splitDashAux (c :: cur) cs

/-- Date parsing for `pd.to_datetime`: the embedding accepts ISO
`YYYY-MM-DD` text and encodes it as a day number, monotone in the date;
any other text is unparseable. -/
def parseDate (s : String) : Option Int :=
  match (splitDashAux [] s.data).map parseNatChars with
  | [some y, some m, some d] =>
    if 1 ≤ m ∧ m ≤ 12 ∧ 1 ≤ d ∧ d ≤ 31 then
      some ((y : Int) * 372 + ((m : Int) - 1) * 31 + ((d : Int) - 1))
    else none
  | _ => none

/-- `pd.to_datetime` on one cell: `NaT` passes through, an already
parsed datetime is unchanged, raw text either parses or fails (pandas
raises with its default `errors` setting). -/
def toDatetimeCell : DateCell → Option DateCell
  | .null => some .null
  | .parsed d => some (.parsed d)
  | .raw s => (parseDate s).map .parsed

/-- Line 70: `df['Age'].fillna(df['Age'].median(), inplace=True)`,
applied to one row given the already computed median. -/
def imputeAgeRow (m : Option Rat) (r : Row) : Row :=
  { r with age := match r.age with
                  | some a => some a
                  | none => m }

def imputeRows (m : Option Rat) (l : List Row) : List Row := l.map (imputeAgeRow m)

/-- Line 71: `df['Gender'].fillna('Unknown', inplace=True)`. -/
def fillGenderRow (r : Row) : Row := { r with gender := some (r.gender.getD "Unknown") }

def fillGenderRows (l : List Row) : List Row := l.map fillGenderRow

/-- Line 72: `df['Location'].fillna('Unknown', inplace=True)`. -/
def fillLocationRow (r : Row) : Row := { r with location := some (r.location.getD "Unknown") }

def fillLocationRows (l : List Row) : List Row := l.map fillLocationRow

/-- The composite per-row effect of the three imputation lines 70-72. -/
def prepRow (m : Option Rat) (r : Row) : Row := fillLocationRow (fillGenderRow (imputeAgeRow m r))

/-- Lines 76-78 for the `JoinDate` column: `pd.to_datetime(df[col])`,
which raises on the first unparseable value. -/
def parseJoinCol : List Row → Except PyError (List Row)
  | [] => .ok []
  | r :: rs =>
    match toDatetimeCell r.joinDate with
    | none => .error (.parseError "JoinDate")
    | some c =>
      match parseJoinCol rs with
      | .error e => .error e
      | .ok rs2 => .ok ({ r with joinDate := c } :: rs2)

/-- Lines 76-78 for the `LastPurchaseDate` column. -/
def parseLastCol : List Row → Except PyError (List Row)
  | [] => .ok []
  | r :: rs =>
    match toDatetimeCell r.lastPurchaseDate with
    | none => .error (.parseError "LastPurchaseDate")
    | some c =>
      match parseLastCol rs with
      | .error e => .error e
      | .ok rs2 => .ok ({ r with lastPurchaseDate := c } :: rs2)

/-- Lines 76-78 for the `FirstPurchaseDate` column. -/
def parseFirstCol : List Row → Except PyError (List Row)
  | [] => .ok []
  | r :: rs =>
    match toDatetimeCell r.firstPurchaseDate with
    | none => .error (.parseError "FirstPurchaseDate")
    | some c =>
      match parseFirstCol rs with
      | .error e => .error e
      | .ok rs2 => .ok ({ r with firstPurchaseDate := c } :: rs2)

/-- Line 81: `df.drop_duplicates(subset=['CustomerID'], keep='first')`;
`seen` accumulates the `CustomerID`s already kept. -/
def dedupKeepFirst (seen : List Int) : List Row → List Row
  | [] => []
  | r :: rs =>
    if r.customerID ∈ seen then dedupKeepFirst seen rs
    else r :: dedupKeepFirst (r.customerID :: seen) rs

/-- Line 87 upper fence: `Q3 + 1.5 * IQR`. -/
def upperFence (q1 q3 : Rat) : Rat := radd q3 (rmul (mkRat 3 2) (rsub q3 q1))

/-- Line 87 per row: `df['Monetary'].clip(upper=fence)`. -/
def capRow (fence : Rat) (r : Row) : Row :=
  { r with monetaryCapped := some (rmin r.monetary fence) }

/-- Lines 84-87: quartiles of the current `Monetary` column, then
`Monetary_Capped = Monetary.clip(upper=Q3 + 1.5*IQR)`.  On an empty
table both quantiles are `NaN` and `clip` leaves every value unchanged. -/
def capRows (l : List Row) : List Row :=
  match quantileLinear (l.map Row.monetary) (mkRat 1 4),
        quantileLinear (l.map Row.monetary) (mkRat 3 4) with
  | some q1, some q3 => l.map (capRow (upperFence q1 q3))
  | _, _ => l.map fun r => { r with monetaryCapped := some r.monetary }

/-- `clean_data` (lines 65-90): impute `Age` with the column median and
`Gender`/`Location` with `"Unknown"`; parse the three date columns when
present (raising on unparseable values); drop duplicate `CustomerID`s
keeping the first occurrence; cap `Monetary` at `Q3 + 1.5*IQR` of the
deduplicated column.  Column accesses on an absent column raise
`KeyError` in source order. -/
def clean_data (t : Table) : Except PyError Table :=
  if t.schema.hasAge = false then .error (.keyError "Age")
  else if t.schema.hasGender = false then .error (.keyError "Gender")
  else if t.schema.hasLocation = false then .error (.keyError "Location")
  else
    let m := medianOpt (t.rows.filterMap Row.age)
    let l3 := fillLocationRows (fillGenderRows (imputeRows m t.rows))
    match (if t.schema.hasJoinDate then parseJoinCol l3 else .ok l3) with
    | .error e => .error e
    | .ok la =>
      match (if t.schema.hasLastPurchaseDate then parseLastCol la else .ok la) with
      | .error e => .error e
      | .ok lb =>
        match (if t.schema.hasFirstPurchaseDate then parseFirstCol lb else .ok lb) with
        | .error e => .error e
        | .ok lc =>
          if t.schema.hasCustomerID = false then .error (.keyError "CustomerID")
          else
            let ld := dedupKeepFirst [] lc
            if t.schema.hasMonetary = false then .error (.keyError "Monetary")
            else .ok { t with rows := capRows ld }

/-! ### Feature derivation stage (`add_derived_features`, lines 93-120) -/

/-- Line 107: `pd.cut(df['Age'], bins=[0,25,35,45,55,65,100],
labels=['18-25','26-35','36-45','46-55','56-65','65+'])` on one value:
half-open bins, right edge included; values outside every bin are `NaN`. -/
def ageBucket (a : Rat) : Option String :=
  if a ≤ 0 then none
  else if a ≤ 25 then some "18-25"
  else if a ≤ 35 then some "26-35"
  else if a ≤ 45 then some "36-45"
  else if a ≤ 55 then some "46-55"
  else if a ≤ 65 then some "56-65"
  else if a ≤ 100 then some "65+"
  else none

/-- Line 112: `pd.cut(df['Monetary'], bins=[0,100,500,1000,5000,inf],
labels=['Very Low','Low','Medium','High','Very High'])` on one value. -/
def revenueBucket (x : Rat) : Option String :=
  if x ≤ 0 then none
  else if x ≤ 100 then some "Very Low"
  else if x ≤ 500 then some "Low"
  else if x ≤ 1000 then some "Medium"
  else if x ≤ 5000 then some "High"
  else some "Very High"

/-- The per-row effect of lines 98-117 once every column-level guard has
passed.  `now1` is the `datetime.now()` read of line 98 and `now2` the
separate read of line 101; `.astype(int)` truncates toward zero, hence
`Int.tdiv`; `df['Frequency'].replace(0, 1)` floors a zero frequency. -/
def deriveRow (now1 now2 : Int) (r : Row) : Row :=
  { r with
    tenureMonths := r.joinDate.days.map fun d => Int.tdiv (now1 - d) 30
    daysSinceLastPurchase := r.lastPurchaseDate.days.map fun d => now2 - d
    avgDaysBetweenPurchases :=
      some (rdiv r.customerLifetimeDays (((if r.frequency = 0 then 1 else r.frequency : Nat)) : Rat))
    ageGroup := r.age.bind ageBucket
    revenueTier := revenueBucket r.monetary
    estimatedCLV := some (rmul r.monetary (radd 1 (rmul r.purchaseFrequencyRate 365))) }

/-- `add_derived_features` (lines 93-120).  The guards reproduce, in
source order, the exceptions the column expressions can raise:
`KeyError` for an absent column; `TypeError` when subtracting a
datetime from raw (unparsed) text; and, on line 98, `ValueError` from
`((now - JoinDate).dt.days / 30).astype(int)` when any `JoinDate` is
`NaT`, because `.astype(int)` rejects `NaN`.  A `NaT`
`LastPurchaseDate` only makes that row's `DaysSinceLastPurchase` `NaN`
(line 101 has no integer cast). -/
def add_derived_features (t : Table) (now1 now2 : Int) : Except PyError Table :=
  if t.schema.hasJoinDate = false then .error (.keyError "JoinDate")
  else if t.rows.any (fun r => r.joinDate.isRaw) then .error (.typeError "JoinDate")
  else if t.rows.any (fun r => r.joinDate.isNull) then
    .error (.valueError "cannot convert non-finite values to integer")
  else if t.schema.hasLastPurchaseDate = false then .error (.keyError "LastPurchaseDate")
  else if t.rows.any (fun r => r.lastPurchaseDate.isRaw) then .error (.typeError "LastPurchaseDate")
  else if t.schema.hasCustomerLifetimeDays = false then .error (.keyError "CustomerLifetimeDays")
  else if t.schema.hasFrequency = false then .error (.keyError "Frequency")
  else if t.schema.hasAge = false then .error (.keyError "Age")
  else if t.schema.hasMonetary = false then .error (.keyError "Monetary")
  else if t.schema.hasPurchaseFrequencyRate = false then .error (.keyError "PurchaseFrequencyRate")
  else .ok { t with rows := t.rows.map (deriveRow now1 now2) }

/-! ### Boundary adapters and `main` (lines 123-179) -/

/-- `export_to_csv` (lines 123-130): the body is wrapped in
`try/except Exception`, so no failure escapes; a write error is only
printed. -/
def export_to_csv (_writeOk : Bool) : Except PyError Unit := .ok ()

/-- `generate_summary_stats` (lines 133-145): reads the listed columns
in source order, raising `KeyError` on an absent one; otherwise it only
prints. -/
def generate_summary_stats (t : Table) : Except PyError Unit :=
  if t.schema.hasCustomerSegment = false then .error (.keyError "CustomerSegment")
  else if t.schema.hasRecency = false then .error (.keyError "Recency")
  else if t.schema.hasFrequency = false then .error (.keyError "Frequency")
  else if t.schema.hasMonetary = false then .error (.keyError "Monetary")
  else if t.schema.hasActivityStatus = false then .error (.keyError "ActivityStatus")
  else .ok ()

/-- The externals `main` interacts with: whether the database
connection and the query fetch succeed (both functions catch their own
exceptions and return `None` on failure), the fetched table, the two
ambient-clock reads performed by `add_derived_features`, and whether
the CSV write succeeds. -/
structure Env where
  connectOk : Bool
  fetchOk : Bool
  fetched : Table
  clock1 : Int
  clock2 : Int
  writeOk : Bool

/-- How a run of `main` that raises no exception terminates. -/
inductive RunResult where
  | connFail
  | fetchFail
  | completed (t : Table)
deriving DecidableEq, Repr

/-- `main` (lines 148-179): early `return` when the connection or the
fetch fails; otherwise run the pipeline, export, and print the summary.
`main` has no handler of its own, so any exception raised by
`clean_data`, `add_derived_features` or `generate_summary_stats`
propagates out (the `.error` case). -/
def main (env : Env) : Except PyError RunResult :=
  if env.connectOk = false then .ok .connFail
  else if env.fetchOk = false then .ok .fetchFail
  else
    match clean_data env.fetched with
    | .error e => .error e
    | .ok t1 =>
      match add_derived_features t1 env.clock1 env.clock2 with
      | .error e => .error e
      | .ok t2 =>
        match export_to_csv env.writeOk with
        | .error e => .error e
        | .ok _ =>
          match generate_summary_stats t2 with
          | .error e => .error e
          | .ok _ => .ok (.completed t2)

/-! ### Concrete tables used to instantiate the theorems -/

/-- A fully populated input row. -/
def rowA : Row :=
  { customerID := 1, age := some 30, gender := some "F", location := some "X",
    joinDate := .parsed 100, lastPurchaseDate := .parsed 200, firstPurchaseDate := .null,
    monetary := 10, frequency := 2, customerLifetimeDays := 90,
    purchaseFrequencyRate := mkRat 1 100, customerSegment := "S", activityStatus := "A",
    recency := 5 }

/-- A second row: null `Age`, zero `Frequency`, `Monetary` 100. -/
def rowB : Row :=
  { rowA with customerID := 2, age := none, monetary := 100, frequency := 0 }

/-- A two-row input table with every column present. -/
def tW : Table := { schema := {}, rows := [rowA, rowB] }

/-- `clean_data tW`: the `Age` median over both rows is 30; the quartiles
of `Monetary` over `[10, 100]` give the upper fence 145, so no value is
capped. -/
def tWout : Table :=
  { schema := {},
    rows := [{ rowA with monetaryCapped := some 10 },
             { rowB with age := some 30, monetaryCapped := some 100 }] }

/-- First row of `add_derived_features tWout 400 400`. -/
def rowAD : Row :=
  { rowA with
    monetaryCapped := some 10
    tenureMonths := some 10
    daysSinceLastPurchase := some 200
    avgDaysBetweenPurchases := some 45
    ageGroup := some "26-35"
    revenueTier := some "Very Low"
    estimatedCLV := some (mkRat 93 2) }

/-- Second row of `add_derived_features tWout 400 400`. -/
def rowBD : Row :=
  { rowB with
    age := some 30
    monetaryCapped := some 100
    tenureMonths := some 10
    daysSinceLastPurchase := some 200
    avgDaysBetweenPurchases := some 90
    ageGroup := some "26-35"
    revenueTier := some "Very Low"
    estimatedCLV := some 465 }

/-- `add_derived_features tWout 400 400`. -/
def tDout : Table := { schema := {}, rows := [rowAD, rowBD] }

/-- A one-row table whose `LastPurchaseDate` is null (`NaT`). -/
def tC3 : Table := { schema := {}, rows := [{ rowA with lastPurchaseDate := .null }] }

/-- A one-row table whose `JoinDate` is null (`NaT`). -/
def tC3bad : Table := { schema := {}, rows := [{ rowA with joinDate := .null }] }

/-- A one-row table, all dates parsed. -/
def tC5 : Table := { schema := {}, rows := [rowA] }

/-- A one-row table whose `JoinDate` is raw text that `pd.to_datetime`
cannot parse. -/
def tC10 : Table := { schema := {}, rows := [{ rowA with joinDate := .raw "not a date" }] }

/-- An environment whose database connection fails. -/
def envA : Env :=
  { connectOk := false, fetchOk := true, fetched := tW, clock1 := 0, clock2 := 0, writeOk := true }

/-- Connection succeeds, query fetch fails. -/
def envB : Env := { envA with connectOk := true, fetchOk := false }

/-- Connection and fetch succeed on the two-row table. -/
def envC : Env := { envA with connectOk := true, fetchOk := true, clock1 := 400, clock2 := 400 }

/-- Connection and fetch succeed but the fetched table has no `Age`
column. -/
def envD : Env :=
  { envA with connectOk := true, fetchOk := true,
              fetched := { schema := { hasAge := false }, rows := [rowA] } }

/-! ### Exact rational arithmetic: the wrappers agree with the field
operations -/

theorem num_mul_den (a : Rat) : a * ((a.den : Nat) : Rat) = (a.num : Rat) := by
  have h := Rat.num_div_den a
  have had : ((a.den : Nat) : Rat) ≠ 0 := by exact_mod_cast a.den_nz
  calc a * ((a.den : Nat) : Rat)
      = ((a.num : Rat) / ((a.den : Nat) : Rat)) * ((a.den : Nat) : Rat) := by rw [h]
    _ = (a.num : Rat) := div_mul_cancel₀ _ had

theorem radd_eq (a b : Rat) : radd a b = a + b := by
  have had : ((a.den : Nat) : Rat) ≠ 0 := by exact_mod_cast a.den_nz
  have hbd : ((b.den : Nat) : Rat) ≠ 0 := by exact_mod_cast b.den_nz
  rw [radd, Rat.divInt_eq_div]
  push_cast
  rw [div_eq_iff (mul_ne_zero had hbd), ← num_mul_den a, ← num_mul_den b]
  ring

theorem rsub_eq (a b : Rat) : rsub a b = a - b := by
  have had : ((a.den : Nat) : Rat) ≠ 0 := by exact_mod_cast a.den_nz
  have hbd : ((b.den : Nat) : Rat) ≠ 0 := by exact_mod_cast b.den_nz
  rw [rsub, Rat.divInt_eq_div]
  push_cast
  rw [div_eq_iff (mul_ne_zero had hbd), ← num_mul_den a, ← num_mul_den b]
  ring

theorem rmul_eq (a b : Rat) : rmul a b = a * b := by
  have had : ((a.den : Nat) : Rat) ≠ 0 := by exact_mod_cast a.den_nz
  have hbd : ((b.den : Nat) : Rat) ≠ 0 := by exact_mod_cast b.den_nz
  rw [rmul, Rat.divInt_eq_div]
  push_cast
  rw [div_eq_iff (mul_ne_zero had hbd), ← num_mul_den a, ← num_mul_den b]
  ring

theorem rdiv_eq (a b : Rat) : rdiv a b = a / b := by
  rcases eq_or_ne b 0 with hb | hb
  · subst hb
    simp [rdiv]
  · have hbn : b.num ≠ 0 := Rat.num_ne_zero.mpr hb
    have had : ((a.den : Nat) : Rat) ≠ 0 := by exact_mod_cast a.den_nz
    have hbn' : ((b.num : Int) : Rat) ≠ 0 := by exact_mod_cast hbn
    rw [rdiv, Rat.divInt_eq_div]
    push_cast
    rw [div_eq_div_iff (mul_ne_zero hbn' had) hb, ← num_mul_den a, ← num_mul_den b]
    ring

theorem rmin_eq (a b : Rat) : rmin a b = min a b := (min_def a b).symm

theorem replace_zero_cast (n : Nat) : ((if n = 0 then 1 else n : Nat) : Rat) = max (n : Rat) 1 := by
  cases n with
  | zero => simp
  | succ k =>
      have h1 : (1 : Rat) ≤ ((k + 1 : Nat) : Rat) := by
        exact_mod_cast Nat.succ_le_succ (Nat.zero_le k)
      rw [if_neg (Nat.succ_ne_zero k), max_eq_left h1]

/-! ### The feature-derivation stage: basic facts -/

set_option maxHeartbeats 1000000 in
theorem add_derived_ok_elim {t : Table} {n1 n2 : Int} {t' : Table}
    (h : add_derived_features t n1 n2 = .ok t') :
    t'.schema = t.schema ∧ t'.rows = t.rows.map (deriveRow n1 n2) := by
  unfold add_derived_features at h
  split_ifs at h
  all_goals injection h with h2
  subst h2
  exact ⟨rfl, rfl⟩

theorem add_derived_mem {t : Table} {n1 n2 : Int} {t' : Table}
    (h : add_derived_features t n1 n2 = .ok t') {r' : Row} (hr' : r' ∈ t'.rows) :
    ∃ r ∈ t.rows, r' = deriveRow n1 n2 r := by
  rw [(add_derived_ok_elim h).2] at hr'
  obtain ⟨r, hr, hmap⟩ := List.mem_map.mp hr'
  exact ⟨r, hr, hmap.symm⟩

theorem add_derived_ok_intro {t : Table} {n1 n2 : Int}
    (h1 : t.schema.hasJoinDate = true)
    (h2 : t.rows.any (fun r => r.joinDate.isRaw) = false)
    (h3 : t.rows.any (fun r => r.joinDate.isNull) = false)
    (h4 : t.schema.hasLastPurchaseDate = true)
    (h5 : t.rows.any (fun r => r.lastPurchaseDate.isRaw) = false)
    (h6 : t.schema.hasCustomerLifetimeDays = true)
    (h7 : t.schema.hasFrequency = true)
    (h8 : t.schema.hasAge = true)
    (h9 : t.schema.hasMonetary = true)
    (h10 : t.schema.hasPurchaseFrequencyRate = true) :
    add_derived_features t n1 n2 = .ok { t with rows := t.rows.map (deriveRow n1 n2) } := by
  unfold add_derived_features
  simp [h1, h2, h3, h4, h5, h6, h7, h8, h9, h10]

/-- C8: for every row of the derivation stage's output,
`AvgDaysBetweenPurchases = CustomerLifetimeDays / max(Frequency, 1)`:
the `replace(0, 1)` on `Frequency` floors a zero purchase count at one,
so the division never divides by zero. -/
theorem avg_days_zero_frequency_floor {t : Table} {n1 n2 : Int} {t' : Table}
    (h : add_derived_features t n1 n2 = .ok t') :
    ∀ r' ∈ t'.rows,
      r'.avgDaysBetweenPurchases =
        some (r'.customerLifetimeDays / max (r'.frequency : Rat) 1) := by
  intro r' hr'
  obtain ⟨r, _, rfl⟩ := add_derived_mem h hr'
  show some (rdiv r.customerLifetimeDays (((if r.frequency = 0 then 1 else r.frequency : Nat)) : Rat))
      = some (r.customerLifetimeDays / max (r.frequency : Rat) 1)
  rw [rdiv_eq, replace_zero_cast]

/-- C8 witness: on the concrete table, the row with `Frequency = 0` and
`CustomerLifetimeDays = 90` gets `AvgDaysBetweenPurchases = 90`. -/
theorem avg_days_zero_frequency_floor_witness :
    add_derived_features tWout 400 400 = .ok tDout ∧
    rowBD.frequency = 0 ∧ rowBD.customerLifetimeDays = 90 ∧
    rowBD.avgDaysBetweenPurchases = some 90 ∧
    (∀ r' ∈ tDout.rows,
      r'.avgDaysBetweenPurchases = some (r'.customerLifetimeDays / max (r'.frequency : Rat) 1)) :=
  ⟨by decide, by decide, by decide, by decide,
   @avg_days_zero_frequency_floor tWout 400 400 tDout (by decide)⟩

/-- C9: for every row of the derivation stage's output,
`EstimatedCLV = Monetary * (1 + PurchaseFrequencyRate * 365)` (the
embedding computes in exact rational arithmetic). -/
theorem estimated_clv_formula {t : Table} {n1 n2 : Int} {t' : Table}
    (h : add_derived_features t n1 n2 = .ok t') :
    ∀ r' ∈ t'.rows,
      r'.estimatedCLV = some (r'.monetary * (1 + r'.purchaseFrequencyRate * 365)) := by
  intro r' hr'
  obtain ⟨r, _, rfl⟩ := add_derived_mem h hr'
  show some (rmul r.monetary (radd 1 (rmul r.purchaseFrequencyRate 365)))
      = some (r.monetary * (1 + r.purchaseFrequencyRate * 365))
  rw [rmul_eq, radd_eq, rmul_eq]

/-- C9 witness: the concrete row with `Monetary = 100` and
`PurchaseFrequencyRate = 0.01` gets `EstimatedCLV = 465` exactly. -/
theorem estimated_clv_formula_witness :
    add_derived_features tWout 400 400 = .ok tDout ∧
    rowBD.monetary = 100 ∧ rowBD.purchaseFrequencyRate = mkRat 1 100 ∧
    rowBD.estimatedCLV = some 465 ∧
    (∀ r' ∈ tDout.rows,
      r'.estimatedCLV = some (r'.monetary * (1 + r'.purchaseFrequencyRate * 365))) :=
  ⟨by decide, by decide, by decide, by decide,
   @estimated_clv_formula tWout 400 400 tDout (by decide)⟩

/-- C6: every `Age` in `(0, 100]` falls in exactly one of the six
labelled buckets, boundary values resolve to the upper-closed bucket
(`25` is in `18-25`, anything just above `25` is in `26-35`), ages
`≤ 0` or `> 100` get a null category, and the stage's `AgeGroup` column
is this bucketing of the `Age` column. -/
theorem age_group_bucket_totality :
    (∀ a : Rat, 0 < a → a ≤ 100 →
      ∃ l, ageBucket a = some l ∧
        l ∈ (["18-25", "26-35", "36-45", "46-55", "56-65", "65+"] : List String)) ∧
    (∀ a : Rat, a ≤ 0 ∨ 100 < a → ageBucket a = none) ∧
    (∀ a : Rat, 0 < a → a ≤ 25 → ageBucket a = some "18-25") ∧
    (∀ a : Rat, 25 < a → a ≤ 35 → ageBucket a = some "26-35") ∧
    (∀ (t t' : Table) (n1 n2 : Int), add_derived_features t n1 n2 = .ok t' →
      ∀ r' ∈ t'.rows, r'.ageGroup = r'.age.bind ageBucket) := by
  refine ⟨?_, ?_, ?_, ?_, ?_⟩
  · intro a h0 h100
    unfold ageBucket
    split_ifs <;>
      first
        | exact ⟨"18-25", rfl, by simp⟩
        | exact ⟨"26-35", rfl, by simp⟩
        | exact ⟨"36-45", rfl, by simp⟩
        | exact ⟨"46-55", rfl, by simp⟩
        | exact ⟨"56-65", rfl, by simp⟩
        | exact ⟨"65+", rfl, by simp⟩
        | (exfalso; linarith)
  · intro a h
    rcases h with h | h
    · unfold ageBucket
      rw [if_pos h]
    · unfold ageBucket
      split_ifs <;> first | rfl | (exfalso; linarith)
  · intro a h0 h25
    unfold ageBucket
    rw [if_neg (not_le.mpr h0), if_pos h25]
  · intro a h25 h35
    unfold ageBucket
    rw [if_neg (not_le.mpr (lt_trans (by norm_num) h25)), if_neg (not_le.mpr h25), if_pos h35]
  · intro t t' n1 n2 h r' hr'
    obtain ⟨r, _, rfl⟩ := add_derived_mem h hr'
    rfl

/-- C6 witness: boundary values `25`, `25.0001` and the out-of-range
`101`. -/
theorem age_group_bucket_totality_witness :
    ageBucket 25 = some "18-25" ∧ ageBucket (mkRat 250001 10000) = some "26-35" ∧
    ageBucket 101 = none :=
  ⟨age_group_bucket_totality.2.2.1 25 (by decide) (by decide),
   age_group_bucket_totality.2.2.2.1 (mkRat 250001 10000) (by decide) (by decide),
   age_group_bucket_totality.2.1 101 (Or.inr (by decide))⟩

/-- C5 counterexample: the stage has no `now` parameter — it reads the
ambient clock twice (`datetime.now()` on line 98 and again on
line 101).  Two runs over the same fixed table, both starting at clock
value 100, differ when the clock has advanced by the time of the second
read, so the output is not a function of the table and a single fixed
`now`. -/
theorem derive_ambient_clock_dependence :
    add_derived_features tC5 100 100 ≠ add_derived_features tC5 100 101 := by decide

/-- C5 amended: `add_derived_features` takes no `now` parameter; it
performs two separate ambient `datetime.now()` reads, the first (line
98) determining `TenureMonths` and the second (line 101)
`DaysSinceLastPurchase`; the stage is deterministic only as a function
of the table together with both clock readings. -/
theorem derive_clock_reads {t : Table} {n1 n2 : Int} {t' : Table}
    (h : add_derived_features t n1 n2 = .ok t') :
    ∀ r' ∈ t'.rows,
      r'.tenureMonths = r'.joinDate.days.map (fun d => Int.tdiv (n1 - d) 30) ∧
      r'.daysSinceLastPurchase = r'.lastPurchaseDate.days.map (fun d => n2 - d) := by
  intro r' hr'
  obtain ⟨r, _, rfl⟩ := add_derived_mem h hr'
  exact ⟨rfl, rfl⟩

theorem derive_clock_reads_witness :
    add_derived_features tWout 400 400 = .ok tDout ∧
    ∀ r' ∈ tDout.rows,
      r'.tenureMonths = r'.joinDate.days.map (fun d => Int.tdiv (400 - d) 30) ∧
      r'.daysSinceLastPurchase = r'.lastPurchaseDate.days.map (fun d => 400 - d) :=
  ⟨by decide, @derive_clock_reads tWout 400 400 tDout (by decide)⟩

/-- C3 counterexample: a table whose single row has a null `JoinDate`
makes the whole Feature Derivation Stage raise (`.astype(int)` on line
98 rejects the `NaN` produced by `NaT` subtraction), aborting the batch
instead of nulling that row's derived field. -/
theorem derive_null_joindate_aborts :
    add_derived_features tC3bad 7 7
      = .error (.valueError "cannot convert non-finite values to integer") := by decide

/-- C3 amended: a row with a null `LastPurchaseDate` yields a null
`DaysSinceLastPurchase` for that row only, the stage completes, and the
other derived columns are populated; but the graceful degradation does
not extend to `JoinDate`: any null `JoinDate` aborts the whole stage
with a `ValueError` from the integer cast of `TenureMonths`. -/
theorem derive_missing_date_semantics :
    (∀ (t : Table) (n1 n2 : Int),
      t.schema = { } →
      (∀ r ∈ t.rows, r.joinDate.isRaw = false ∧ r.joinDate.isNull = false) →
      (∀ r ∈ t.rows, r.lastPurchaseDate.isRaw = false) →
      ∃ t', add_derived_features t n1 n2 = .ok t' ∧
        ∀ r' ∈ t'.rows,
          (r'.lastPurchaseDate = DateCell.null → r'.daysSinceLastPurchase = none) ∧
          r'.tenureMonths.isSome = true ∧ r'.avgDaysBetweenPurchases.isSome = true ∧
          r'.estimatedCLV.isSome = true ∧ r'.ageGroup = r'.age.bind ageBucket ∧
          r'.revenueTier = revenueBucket r'.monetary) ∧
    (∀ (t : Table) (n1 n2 : Int),
      t.schema.hasJoinDate = true →
      (∀ r ∈ t.rows, r.joinDate.isRaw = false) →
      (∃ r ∈ t.rows, r.joinDate = DateCell.null) →
      add_derived_features t n1 n2
        = .error (.valueError "cannot convert non-finite values to integer")) := by
  constructor
  · intro t n1 n2 hs hjoin hlast
    have h2 : t.rows.any (fun r => r.joinDate.isRaw) = false := by
      simp only [List.any_eq_false]
      intro r hr
      simp [(hjoin r hr).1]
    have h3 : t.rows.any (fun r => r.joinDate.isNull) = false := by
      simp only [List.any_eq_false]
      intro r hr
      simp [(hjoin r hr).2]
    have h5 : t.rows.any (fun r => r.lastPurchaseDate.isRaw) = false := by
      simp only [List.any_eq_false]
      intro r hr
      simp [hlast r hr]
    refine ⟨_, add_derived_ok_intro (by rw [hs]) h2 h3 (by rw [hs]) h5 (by rw [hs])
      (by rw [hs]) (by rw [hs]) (by rw [hs]) (by rw [hs]), ?_⟩
    intro r' hr'
    obtain ⟨r, hmem, heq⟩ := List.mem_map.mp hr'
    subst heq
    refine ⟨?_, ?_, rfl, rfl, rfl, rfl⟩
    · intro hnull
      have hnull' : r.lastPurchaseDate = DateCell.null := hnull
      show r.lastPurchaseDate.days.map (fun d => n2 - d) = none
      rw [hnull']
      rfl
    · obtain ⟨hraw, hnul⟩ := hjoin r hmem
      cases hj : r.joinDate with
      | null => rw [hj] at hnul; exact absurd hnul (by simp [DateCell.isNull])
      | raw s => rw [hj] at hraw; exact absurd hraw (by simp [DateCell.isRaw])
      | parsed d =>
        show ((r.joinDate.days.map fun d => Int.tdiv (n1 - d) 30)).isSome = true
        rw [hj]
        rfl
  · intro t n1 n2 hsj hraw hnull
    obtain ⟨r0, hr0, hr0null⟩ := hnull
    have hrawF : t.rows.any (fun r => r.joinDate.isRaw) = false := by
      simp only [List.any_eq_false]
      intro r hr
      simp [hraw r hr]
    have hnullT : t.rows.any (fun r => r.joinDate.isNull) = true := by
      simp only [List.any_eq_true]
      exact ⟨r0, hr0, by rw [hr0null]; rfl⟩
    unfold add_derived_features
    simp [hsj, hrawF, hnullT]

theorem derive_missing_date_semantics_witness :
    ∃ t', add_derived_features tC3 400 400 = .ok t' ∧
      ∀ r' ∈ t'.rows,
        (r'.lastPurchaseDate = DateCell.null → r'.daysSinceLastPurchase = none) ∧
        r'.tenureMonths.isSome = true ∧ r'.avgDaysBetweenPurchases.isSome = true ∧
        r'.estimatedCLV.isSome = true ∧ r'.ageGroup = r'.age.bind ageBucket ∧
        r'.revenueTier = revenueBucket r'.monetary :=
  derive_missing_date_semantics.1 tC3 400 400 rfl (by decide) (by decide)

/-! ### Date-cell parsing: basic facts -/

theorem toDatetimeCell_not_raw {c c' : DateCell} (h : toDatetimeCell c = some c') :
    c'.isRaw = false := by
  cases c with
  | null => cases h; rfl
  | parsed d => cases h; rfl
  | raw s =>
    simp only [toDatetimeCell] at h
    cases hp : parseDate s with
    | none => rw [hp] at h; simp at h
    | some d =>
      rw [hp] at h
      simp only [Option.map_some'] at h
      cases h
      rfl

theorem toDatetimeCell_id {c : DateCell} (h : c.isRaw = false) : toDatetimeCell c = some c := by
  cases c with
  | null => rfl
  | parsed d => rfl
  | raw s => simp [DateCell.isRaw] at h

/-! ### The floor helper and quantile/median totality -/

theorem ratFloorNat_le {q : Rat} {m : Nat} (h : q ≤ (m : Rat)) : ratFloorNat q ≤ m := by
  rcases le_or_lt 0 q.num with hn | hn
  · have hd : (0 : Int) ≤ (q.den : Int) := Int.ofNat_nonneg _
    have ht : q.num.tdiv (q.den : Int) = q.num / (q.den : Int) := Int.tdiv_eq_ediv hn hd
    have hfl : (q.num / (q.den : Int)) = ⌊q⌋ := Rat.floor_def.symm
    have h2 : ⌊q⌋ ≤ (m : Int) := by
      have h3 := Int.floor_mono h
      rwa [Int.floor_natCast] at h3
    unfold ratFloorNat
    rw [ht, hfl]
    exact Int.toNat_le.mpr h2
  · have h1 : 0 ≤ (-q.num).tdiv (q.den : Int) :=
      Int.tdiv_nonneg (by omega) (Int.ofNat_nonneg _)
    have h2 := Int.neg_tdiv q.num (q.den : Int)
    unfold ratFloorNat
    omega

theorem quantileLinear_isSome {xs : List Rat} {q : Rat} (hne : xs ≠ []) (h1 : q ≤ 1) :
    (quantileLinear xs q).isSome = true := by
  unfold quantileLinear
  have hlen : (List.insertionSort (· ≤ ·) xs).length = xs.length :=
    (List.perm_insertionSort _ xs).length_eq
  have hn0 : (List.insertionSort (· ≤ ·) xs).length ≠ 0 := by
    rw [hlen]
    simpa [← List.length_pos] using List.length_pos.mpr hne
  rw [if_neg hn0]
  dsimp only
  have hposle : rmul q (((List.insertionSort (· ≤ ·) xs).length - 1 : Nat) : Rat)
      ≤ (((List.insertionSort (· ≤ ·) xs).length - 1 : Nat) : Rat) := by
    rw [rmul_eq]
    calc q * (((List.insertionSort (· ≤ ·) xs).length - 1 : Nat) : Rat)
        ≤ 1 * (((List.insertionSort (· ≤ ·) xs).length - 1 : Nat) : Rat) :=
          mul_le_mul_of_nonneg_right h1 (by positivity)
      _ = (((List.insertionSort (· ≤ ·) xs).length - 1 : Nat) : Rat) := one_mul _
  have hi : ratFloorNat (rmul q (((List.insertionSort (· ≤ ·) xs).length - 1 : Nat) : Rat))
      ≤ (List.insertionSort (· ≤ ·) xs).length - 1 := ratFloorNat_le hposle
  have hilt : ratFloorNat (rmul q (((List.insertionSort (· ≤ ·) xs).length - 1 : Nat) : Rat))
      < (List.insertionSort (· ≤ ·) xs).length := by omega
  rw [List.getElem?_eq_getElem hilt]
  cases hb : (List.insertionSort (· ≤ ·) xs)[ratFloorNat
      (rmul q (((List.insertionSort (· ≤ ·) xs).length - 1 : Nat) : Rat)) + 1]? with
  | none => rfl
  | some b => rfl

theorem medianOpt_isSome {xs : List Rat} (hne : xs ≠ []) : (medianOpt xs).isSome = true := by
  unfold medianOpt
  have hlen : (List.insertionSort (· ≤ ·) xs).length = xs.length :=
    (List.perm_insertionSort _ xs).length_eq
  have hn0 : (List.insertionSort (· ≤ ·) xs).length ≠ 0 := by
    rw [hlen]
    simpa [← List.length_pos] using List.length_pos.mpr hne
  rw [if_neg hn0]
  by_cases hodd : (List.insertionSort (· ≤ ·) xs).length % 2 = 1
  · rw [if_pos hodd]
    have hlt : (List.insertionSort (· ≤ ·) xs).length / 2
        < (List.insertionSort (· ≤ ·) xs).length := Nat.div_lt_self (by omega) (by omega)
    rw [List.getElem?_eq_getElem hlt]
    rfl
  · rw [if_neg hodd]
    have hlt1 : (List.insertionSort (· ≤ ·) xs).length / 2 - 1
        < (List.insertionSort (· ≤ ·) xs).length := by omega
    have hlt2 : (List.insertionSort (· ≤ ·) xs).length / 2
        < (List.insertionSort (· ≤ ·) xs).length := Nat.div_lt_self (by omega) (by omega)
    rw [List.getElem?_eq_getElem hlt1, List.getElem?_eq_getElem hlt2]
    rfl

theorem medianOpt_eq_none {xs : List Rat} (h : medianOpt xs = none) : xs = [] := by
  by_contra hne
  have := medianOpt_isSome hne
  rw [h] at this
  cases this

/-! ### Parsing one date column: pointwise description and identity -/

theorem parseJoinCol_ok_pointwise {l l' : List Row} (h : parseJoinCol l = .ok l') :
    l'.length = l.length ∧
    ∀ (i : Nat) (r : Row), l[i]? = some r → ∃ c, toDatetimeCell r.joinDate = some c ∧
      l'[i]? = some { r with joinDate := c } := by
  induction l generalizing l' with
  | nil =>
    injection h with h2
    subst h2
    refine ⟨rfl, ?_⟩
    intro i r hir
    simp at hir
  | cons r0 rs ih =>
    simp only [parseJoinCol] at h
    cases hc : toDatetimeCell r0.joinDate with
    | none =>
      rw [hc] at h
      simp at h
    | some c =>
      rw [hc] at h
      cases hr : parseJoinCol rs with
      | error e =>
        rw [hr] at h
        simp at h
      | ok rs2 =>
        rw [hr] at h
        simp only [Except.ok.injEq] at h
        subst h
        obtain ⟨hlen, hpt⟩ := ih hr
        refine ⟨by simp [hlen], ?_⟩
        intro i r hir
        cases i with
        | zero =>
          simp only [List.getElem?_cons_zero, Option.some.injEq] at hir
          subst hir
          exact ⟨c, hc, by simp⟩
        | succ j =>
          simp only [List.getElem?_cons_succ] at hir
          obtain ⟨c2, hc2, hl2⟩ := hpt j r hir
          exact ⟨c2, hc2, by simpa using hl2⟩

theorem parseJoinCol_id {l : List Row} (h : ∀ r ∈ l, r.joinDate.isRaw = false) :
    parseJoinCol l = .ok l := by
  induction l with
  | nil => rfl
  | cons r0 rs ih =>
    have h0 : toDatetimeCell r0.joinDate = some r0.joinDate :=
      toDatetimeCell_id (h r0 (by simp))
    have hr : parseJoinCol rs = .ok rs := ih fun r hr => h r (by simp [hr])
    simp only [parseJoinCol, h0, hr]

theorem parseLastCol_ok_pointwise {l l' : List Row} (h : parseLastCol l = .ok l') :
    l'.length = l.length ∧
    ∀ (i : Nat) (r : Row), l[i]? = some r → ∃ c, toDatetimeCell r.lastPurchaseDate = some c ∧
      l'[i]? = some { r with lastPurchaseDate := c } := by
  induction l generalizing l' with
  | nil =>
    injection h with h2
    subst h2
    refine ⟨rfl, ?_⟩
    intro i r hir
    simp at hir
  | cons r0 rs ih =>
    simp only [parseLastCol] at h
    cases hc : toDatetimeCell r0.lastPurchaseDate with
    | none =>
      rw [hc] at h
      simp at h
    | some c =>
      rw [hc] at h
      cases hr : parseLastCol rs with
      | error e =>
        rw [hr] at h
        simp at h
      | ok rs2 =>
        rw [hr] at h
        simp only [Except.ok.injEq] at h
        subst h
        obtain ⟨hlen, hpt⟩ := ih hr
        refine ⟨by simp [hlen], ?_⟩
        intro i r hir
        cases i with
        | zero =>
          simp only [List.getElem?_cons_zero, Option.some.injEq] at hir
          subst hir
          exact ⟨c, hc, by simp⟩
        | succ j =>
          simp only [List.getElem?_cons_succ] at hir
          obtain ⟨c2, hc2, hl2⟩ := hpt j r hir
          exact ⟨c2, hc2, by simpa using hl2⟩

theorem parseLastCol_id {l : List Row} (h : ∀ r ∈ l, r.lastPurchaseDate.isRaw = false) :
    parseLastCol l = .ok l := by
  induction l with
  | nil => rfl
  | cons r0 rs ih =>
    have h0 : toDatetimeCell r0.lastPurchaseDate = some r0.lastPurchaseDate :=
      toDatetimeCell_id (h r0 (by simp))
    have hr : parseLastCol rs = .ok rs := ih fun r hr => h r (by simp [hr])
    simp only [parseLastCol, h0, hr]

theorem parseFirstCol_ok_pointwise {l l' : List Row} (h : parseFirstCol l = .ok l') :
    l'.length = l.length ∧
    ∀ (i : Nat) (r : Row), l[i]? = some r → ∃ c, toDatetimeCell r.firstPurchaseDate = some c ∧
      l'[i]? = some { r with firstPurchaseDate := c } := by
  induction l generalizing l' with
  | nil =>
    injection h with h2
    subst h2
    refine ⟨rfl, ?_⟩
    intro i r hir
    simp at hir
  | cons r0 rs ih =>
    simp only [parseFirstCol] at h
    cases hc : toDatetimeCell r0.firstPurchaseDate with
    | none =>
      rw [hc] at h
      simp at h
    | some c =>
      rw [hc] at h
      cases hr : parseFirstCol rs with
      | error e =>
        rw [hr] at h
        simp at h
      | ok rs2 =>
        rw [hr] at h
        simp only [Except.ok.injEq] at h
        subst h
        obtain ⟨hlen, hpt⟩ := ih hr
        refine ⟨by simp [hlen], ?_⟩
        intro i r hir
        cases i with
        | zero =>
          simp only [List.getElem?_cons_zero, Option.some.injEq] at hir
          subst hir
          exact ⟨c, hc, by simp⟩
        | succ j =>
          simp only [List.getElem?_cons_succ] at hir
          obtain ⟨c2, hc2, hl2⟩ := hpt j r hir
          exact ⟨c2, hc2, by simpa using hl2⟩

theorem parseFirstCol_id {l : List Row} (h : ∀ r ∈ l, r.firstPurchaseDate.isRaw = false) :
    parseFirstCol l = .ok l := by
  induction l with
  | nil => rfl
  | cons r0 rs ih =>
    have h0 : toDatetimeCell r0.firstPurchaseDate = some r0.firstPurchaseDate :=
      toDatetimeCell_id (h r0 (by simp))
    have hr : parseFirstCol rs = .ok rs := ih fun r hr => h r (by simp [hr])
    simp only [parseFirstCol, h0, hr]

/-! ### Deduplication: keep the first occurrence of each CustomerID -/

theorem dedupKeepFirst_not_seen {seen : List Int} {l : List Row} :
    ∀ r' ∈ dedupKeepFirst seen l, r'.customerID ∉ seen := by
  induction l generalizing seen with
  | nil =>
    intro r' hr'
    simp [dedupKeepFirst] at hr'
  | cons r0 rs ih =>
    intro r' hr'
    simp only [dedupKeepFirst] at hr'
    by_cases h0 : r0.customerID ∈ seen
    · rw [if_pos h0] at hr'
      exact ih r' hr'
    · rw [if_neg h0] at hr'
      rcases List.mem_cons.mp hr' with rfl | h2
      · exact h0
      · intro hin
        exact ih r' h2 (List.mem_cons_of_mem _ hin)

theorem dedupKeepFirst_subset {seen : List Int} {l : List Row} :
    ∀ r' ∈ dedupKeepFirst seen l, r' ∈ l := by
  induction l generalizing seen with
  | nil =>
    intro r' hr'
    simp [dedupKeepFirst] at hr'
  | cons r0 rs ih =>
    intro r' hr'
    simp only [dedupKeepFirst] at hr'
    by_cases h0 : r0.customerID ∈ seen
    · rw [if_pos h0] at hr'
      exact List.mem_cons_of_mem _ (ih r' hr')
    · rw [if_neg h0] at hr'
      rcases List.mem_cons.mp hr' with rfl | h2
      · exact List.mem_cons_self _ _
      · exact List.mem_cons_of_mem _ (ih r' h2)

theorem dedupKeepFirst_first {seen : List Int} {l : List Row} {r' : Row}
    (h : r' ∈ dedupKeepFirst seen l) :
    ∃ i : Nat, l[i]? = some r' ∧ ∀ (j : Nat) (r2 : Row), j < i → l[j]? = some r2 →
      r2.customerID ∈ seen ∨ r2.customerID ≠ r'.customerID := by
  induction l generalizing seen with
  | nil => simp [dedupKeepFirst] at h
  | cons r0 rs ih =>
    simp only [dedupKeepFirst] at h
    by_cases h0 : r0.customerID ∈ seen
    · rw [if_pos h0] at h
      obtain ⟨i, hi, hj⟩ := ih h
      refine ⟨i + 1, by simpa using hi, ?_⟩
      intro j r2 hlt hj2
      cases j with
      | zero =>
        simp only [List.getElem?_cons_zero, Option.some.injEq] at hj2
        subst hj2
        exact Or.inl h0
      | succ k =>
        simp only [List.getElem?_cons_succ] at hj2
        exact hj k r2 (by omega) hj2
    · rw [if_neg h0] at h
      rcases List.mem_cons.mp h with rfl | h2
      · refine ⟨0, by simp, ?_⟩
        intro j r2 hlt
        exact absurd hlt (by omega)
      · have hns := dedupKeepFirst_not_seen r' h2
        obtain ⟨i, hi, hj⟩ := ih h2
        refine ⟨i + 1, by simpa using hi, ?_⟩
        intro j r2 hlt hj2
        cases j with
        | zero =>
          simp only [List.getElem?_cons_zero, Option.some.injEq] at hj2
          subst hj2
          right
          intro heq
          apply hns
          rw [← heq]
          exact List.mem_cons_self _ _
        | succ k =>
          simp only [List.getElem?_cons_succ] at hj2
          rcases hj k r2 (by omega) hj2 with hin | hne
          · rcases List.mem_cons.mp hin with heq2 | hin2
            · right
              intro heq3
              apply hns
              have hrr : r'.customerID = r0.customerID := by rw [← heq3, heq2]
              rw [hrr]
              exact List.mem_cons_self _ _
            · exact Or.inl hin2
          · exact Or.inr hne

theorem dedupKeepFirst_nodup (seen : List Int) (l : List Row) :
    ((dedupKeepFirst seen l).map Row.customerID).Nodup := by
  induction l generalizing seen with
  | nil => simp [dedupKeepFirst]
  | cons r0 rs ih =>
    simp only [dedupKeepFirst]
    by_cases h0 : r0.customerID ∈ seen
    · rw [if_pos h0]
      exact ih seen
    · rw [if_neg h0]
      simp only [List.map_cons]
      refine List.nodup_cons.mpr ⟨?_, ih _⟩
      intro hin
      obtain ⟨r', hr', hid⟩ := List.mem_map.mp hin
      apply dedupKeepFirst_not_seen r' hr'
      rw [hid]
      exact List.mem_cons_self _ _

theorem dedupKeepFirst_id {l : List Row} (hnd : (l.map Row.customerID).Nodup) :
    ∀ seen : List Int, (∀ r ∈ l, r.customerID ∉ seen) → dedupKeepFirst seen l = l := by
  induction l with
  | nil =>
    intro seen _
    rfl
  | cons r0 rs ih =>
    intro seen hseen
    have hnd' : ((r0.customerID :: rs.map Row.customerID)).Nodup := by simpa using hnd
    have h0 : r0.customerID ∉ seen := hseen r0 (List.mem_cons_self _ _)
    simp only [dedupKeepFirst, if_neg h0]
    congr 1
    apply ih (List.nodup_cons.mp hnd').2
    intro r hr hin
    rcases List.mem_cons.mp hin with heq | hin2
    · apply (List.nodup_cons.mp hnd').1
      rw [← heq]
      exact List.mem_map_of_mem _ hr
    · exact hseen r (List.mem_cons_of_mem _ hr) hin2

/-! ### Outlier capping -/

theorem capRows_monetary (l : List Row) : (capRows l).map Row.monetary = l.map Row.monetary := by
  unfold capRows
  split
  · rw [List.map_map]
    rfl
  · rw [List.map_map]
    rfl

theorem capRows_eq_of_quant {l : List Row} {q1 q3 : Rat}
    (h1 : quantileLinear (l.map Row.monetary) (mkRat 1 4) = some q1)
    (h3 : quantileLinear (l.map Row.monetary) (mkRat 3 4) = some q3) :
    capRows l = l.map (capRow (upperFence q1 q3)) := by
  unfold capRows
  rw [h1, h3]

theorem upperFence_eq (q1 q3 : Rat) : upperFence q1 q3 = q3 + 3 / 2 * (q3 - q1) := by
  unfold upperFence
  rw [radd_eq, rmul_eq, rsub_eq]
  norm_num [Rat.mkRat_eq_div]

/-! ### The three imputation lines as one per-row map -/

theorem fills_eq_map_prepRow (m : Option Rat) (l : List Row) :
    fillLocationRows (fillGenderRows (imputeRows m l)) = l.map (prepRow m) := by
  unfold fillLocationRows fillGenderRows imputeRows
  rw [List.map_map, List.map_map]
  rfl

theorem capRows_customerID (l : List Row) :
    (capRows l).map Row.customerID = l.map Row.customerID := by
  unfold capRows
  split
  · rw [List.map_map]
    rfl
  · rw [List.map_map]
    rfl

theorem capRows_mem {l : List Row} {r' : Row} (h : r' ∈ capRows l) :
    ∃ r5 ∈ l, ∃ v : Rat, r' = { r5 with monetaryCapped := some v } := by
  unfold capRows at h
  split at h
  · obtain ⟨r5, hr5, heq⟩ := List.mem_map.mp h
    exact ⟨r5, hr5, _, heq.symm⟩
  · obtain ⟨r5, hr5, heq⟩ := List.mem_map.mp h
    exact ⟨r5, hr5, _, heq.symm⟩

theorem capRows_idem (l : List Row) : capRows (capRows l) = capRows l := by
  rcases eq_or_ne l [] with rfl | hne
  · rfl
  · have hmne : l.map Row.monetary ≠ [] := by simpa using hne
    obtain ⟨q1, hq1⟩ := Option.isSome_iff_exists.mp
      (quantileLinear_isSome hmne (by decide : (mkRat 1 4 : Rat) ≤ 1))
    obtain ⟨q3, hq3⟩ := Option.isSome_iff_exists.mp
      (quantileLinear_isSome hmne (by decide : (mkRat 3 4 : Rat) ≤ 1))
    rw [capRows_eq_of_quant hq1 hq3]
    have hmm : (l.map (capRow (upperFence q1 q3))).map Row.monetary = l.map Row.monetary := by
      rw [List.map_map]
      rfl
    have hq1' : quantileLinear ((l.map (capRow (upperFence q1 q3))).map Row.monetary)
        (mkRat 1 4) = some q1 := by rw [hmm]; exact hq1
    have hq3' : quantileLinear ((l.map (capRow (upperFence q1 q3))).map Row.monetary)
        (mkRat 3 4) = some q3 := by rw [hmm]; exact hq3
    rw [capRows_eq_of_quant hq1' hq3', List.map_map]
    rfl

theorem imputeAgeRow_id {m : Option Rat} {r : Row} (h : r.age = none → m = none) :
    imputeAgeRow m r = r := by
  unfold imputeAgeRow
  cases ha : r.age with
  | some a =>
    show { r with age := some a } = r
    rw [← ha]
  | none =>
    show { r with age := m } = r
    rw [h ha, ← ha]

theorem fillGenderRow_id {r : Row} (h : r.gender.isSome = true) : fillGenderRow r = r := by
  obtain ⟨g, hg⟩ := Option.isSome_iff_exists.mp h
  unfold fillGenderRow
  rw [hg]
  rw [show ((some g).getD "Unknown") = g from rfl]
  rw [← hg]

theorem fillLocationRow_id {r : Row} (h : r.location.isSome = true) : fillLocationRow r = r := by
  obtain ⟨g, hg⟩ := Option.isSome_iff_exists.mp h
  unfold fillLocationRow
  rw [hg]
  rw [show ((some g).getD "Unknown") = g from rfl]
  rw [← hg]

/-! ### The cleaning stage: success shape -/

theorem clean_data_ok_elim {t t' : Table} (h : clean_data t = .ok t') :
    t.schema.hasAge = true ∧ t.schema.hasGender = true ∧ t.schema.hasLocation = true ∧
    t.schema.hasCustomerID = true ∧ t.schema.hasMonetary = true ∧ t'.schema = t.schema ∧
    ∃ la lb lc : List Row,
      ((t.schema.hasJoinDate = true ∧
          parseJoinCol (t.rows.map (prepRow (medianOpt (t.rows.filterMap Row.age)))) = .ok la) ∨
       (t.schema.hasJoinDate = false ∧
          la = t.rows.map (prepRow (medianOpt (t.rows.filterMap Row.age))))) ∧
      ((t.schema.hasLastPurchaseDate = true ∧ parseLastCol la = .ok lb) ∨
       (t.schema.hasLastPurchaseDate = false ∧ lb = la)) ∧
      ((t.schema.hasFirstPurchaseDate = true ∧ parseFirstCol lb = .ok lc) ∨
       (t.schema.hasFirstPurchaseDate = false ∧ lc = lb)) ∧
      t'.rows = capRows (dedupKeepFirst [] lc) := by
  unfold clean_data at h
  dsimp only at h
  split at h
  · exact Except.noConfusion h
  split at h
  · exact Except.noConfusion h
  split at h
  · exact Except.noConfusion h
  rename_i hA hG hL
  split at h
  · exact Except.noConfusion h
  rename_i la hJ
  split at h
  · exact Except.noConfusion h
  rename_i lb hLp
  split at h
  · exact Except.noConfusion h
  rename_i lc hFp
  split at h
  · exact Except.noConfusion h
  rename_i hC
  split at h
  · exact Except.noConfusion h
  rename_i hM
  injection h with h2
  subst h2
  simp only [Bool.not_eq_false] at hA hG hL hC hM
  refine ⟨hA, hG, hL, hC, hM, rfl, la, lb, lc, ?_, ?_, ?_, rfl⟩
  · cases hj : t.schema.hasJoinDate with
    | false =>
      rw [hj, if_neg (by simp)] at hJ
      injection hJ with h3
      exact Or.inr ⟨rfl, by rw [← h3]; exact fills_eq_map_prepRow _ _⟩
    | true =>
      rw [hj, if_pos rfl] at hJ
      rw [fills_eq_map_prepRow] at hJ
      exact Or.inl ⟨rfl, hJ⟩
  · cases hj : t.schema.hasLastPurchaseDate with
    | false =>
      rw [hj, if_neg (by simp)] at hLp
      injection hLp with h3
      exact Or.inr ⟨rfl, h3.symm⟩
    | true =>
      rw [hj, if_pos rfl] at hLp
      exact Or.inl ⟨rfl, hLp⟩
  · cases hj : t.schema.hasFirstPurchaseDate with
    | false =>
      rw [hj, if_neg (by simp)] at hFp
      injection hFp with h3
      exact Or.inr ⟨rfl, h3.symm⟩
    | true =>
      rw [hj, if_pos rfl] at hFp
      exact Or.inl ⟨rfl, hFp⟩

theorem clean_data_ok_intro {t : Table} {la lb lc : List Row}
    (hA : t.schema.hasAge = true) (hG : t.schema.hasGender = true)
    (hL : t.schema.hasLocation = true) (hC : t.schema.hasCustomerID = true)
    (hM : t.schema.hasMonetary = true)
    (hJ : (t.schema.hasJoinDate = true ∧
            parseJoinCol (t.rows.map (prepRow (medianOpt (t.rows.filterMap Row.age)))) = .ok la) ∨
          (t.schema.hasJoinDate = false ∧
            la = t.rows.map (prepRow (medianOpt (t.rows.filterMap Row.age)))))
    (hLp : (t.schema.hasLastPurchaseDate = true ∧ parseLastCol la = .ok lb) ∨
           (t.schema.hasLastPurchaseDate = false ∧ lb = la))
    (hFp : (t.schema.hasFirstPurchaseDate = true ∧ parseFirstCol lb = .ok lc) ∨
           (t.schema.hasFirstPurchaseDate = false ∧ lc = lb)) :
    clean_data t = .ok { t with rows := capRows (dedupKeepFirst [] lc) } := by
  unfold clean_data
  rw [if_neg (by simp [hA]), if_neg (by simp [hG]), if_neg (by simp [hL])]
  dsimp only
  rw [fills_eq_map_prepRow]
  rcases hJ with ⟨hb, hp⟩ | ⟨hb, hp⟩
  all_goals rw [hb]
  · rw [if_pos rfl, hp]
    dsimp only
    rcases hLp with ⟨hb2, hp2⟩ | ⟨hb2, hp2⟩
    all_goals rw [hb2]
    · rw [if_pos rfl, hp2]
      dsimp only
      rcases hFp with ⟨hb3, hp3⟩ | ⟨hb3, hp3⟩
      all_goals rw [hb3]
      · rw [if_pos rfl, hp3]
        dsimp only
        rw [if_neg (by simp [hC]), if_neg (by simp [hM])]
      · rw [if_neg (by simp), ← hp3]
        dsimp only
        rw [if_neg (by simp [hC]), if_neg (by simp [hM])]
    · rw [if_neg (by simp), ← hp2]
      dsimp only
      rcases hFp with ⟨hb3, hp3⟩ | ⟨hb3, hp3⟩
      all_goals rw [hb3]
      · rw [if_pos rfl, hp3]
        dsimp only
        rw [if_neg (by simp [hC]), if_neg (by simp [hM])]
      · rw [if_neg (by simp), ← hp3]
        dsimp only
        rw [if_neg (by simp [hC]), if_neg (by simp [hM])]
  · rw [if_neg (by simp), ← hp]
    dsimp only
    rcases hLp with ⟨hb2, hp2⟩ | ⟨hb2, hp2⟩
    all_goals rw [hb2]
    · rw [if_pos rfl, hp2]
      dsimp only
      rcases hFp with ⟨hb3, hp3⟩ | ⟨hb3, hp3⟩
      all_goals rw [hb3]
      · rw [if_pos rfl, hp3]
        dsimp only
        rw [if_neg (by simp [hC]), if_neg (by simp [hM])]
      · rw [if_neg (by simp), ← hp3]
        dsimp only
        rw [if_neg (by simp [hC]), if_neg (by simp [hM])]
    · rw [if_neg (by simp), ← hp2]
      dsimp only
      rcases hFp with ⟨hb3, hp3⟩ | ⟨hb3, hp3⟩
      all_goals rw [hb3]
      · rw [if_pos rfl, hp3]
        dsimp only
        rw [if_neg (by simp [hC]), if_neg (by simp [hM])]
      · rw [if_neg (by simp), ← hp3]
        dsimp only
        rw [if_neg (by simp [hC]), if_neg (by simp [hM])]

/-- On a successful run of `clean_data`, the pre-dedup list `lc` (the
rows after imputation and date parsing, still in input order and with
duplicates) relates pointwise to the input rows: the `CustomerID` is
unchanged, the `Age` is the input age imputed with the median over all
input rows, `Gender`/`Location` are filled, and every present date
column was parsed (so raw cells of present columns were parseable and
the surviving cells are no longer raw). -/
theorem clean_pipeline_pointwise {t t' : Table} (h : clean_data t = .ok t') :
    ∃ lc : List Row,
      t'.rows = capRows (dedupKeepFirst [] lc) ∧
      lc.length = t.rows.length ∧
      ∀ (i : Nat) (r : Row), t.rows[i]? = some r →
        ∃ rc : Row, lc[i]? = some rc ∧
          rc.customerID = r.customerID ∧
          rc.age = (imputeAgeRow (medianOpt (t.rows.filterMap Row.age)) r).age ∧
          rc.monetary = r.monetary ∧
          rc.gender.isSome = true ∧ rc.location.isSome = true ∧
          (t.schema.hasJoinDate = true →
            (toDatetimeCell r.joinDate).isSome = true ∧ rc.joinDate.isRaw = false) ∧
          (t.schema.hasLastPurchaseDate = true →
            (toDatetimeCell r.lastPurchaseDate).isSome = true ∧
              rc.lastPurchaseDate.isRaw = false) ∧
          (t.schema.hasFirstPurchaseDate = true →
            (toDatetimeCell r.firstPurchaseDate).isSome = true ∧
              rc.firstPurchaseDate.isRaw = false) := by
  obtain ⟨hA, hG, hL, hC, hM, hsch, la, lb, lc, hJ, hLp, hFp, hrows⟩ := clean_data_ok_elim h
  have h0 : ∀ (i : Nat) (r : Row), t.rows[i]? = some r →
      (t.rows.map (prepRow (medianOpt (t.rows.filterMap Row.age))))[i]?
        = some (prepRow (medianOpt (t.rows.filterMap Row.age)) r) := by
    intro i r hi
    rw [List.getElem?_map, hi]
    rfl
  have hlen0 : (t.rows.map (prepRow (medianOpt (t.rows.filterMap Row.age)))).length
      = t.rows.length := List.length_map _ _
  have hstepJ : la.length = t.rows.length ∧ ∀ (i : Nat) (r : Row), t.rows[i]? = some r →
      ∃ ra : Row, la[i]? = some ra ∧
        ra.customerID = r.customerID ∧
        ra.age = (imputeAgeRow (medianOpt (t.rows.filterMap Row.age)) r).age ∧
        ra.monetary = r.monetary ∧
        ra.gender.isSome = true ∧ ra.location.isSome = true ∧
        ra.lastPurchaseDate = r.lastPurchaseDate ∧
        ra.firstPurchaseDate = r.firstPurchaseDate ∧
        (t.schema.hasJoinDate = true →
          (toDatetimeCell r.joinDate).isSome = true ∧ ra.joinDate.isRaw = false) := by
    rcases hJ with ⟨hb, hp⟩ | ⟨hb, hp⟩
    · obtain ⟨hlen, hpt⟩ := parseJoinCol_ok_pointwise hp
      refine ⟨by rw [hlen, hlen0], ?_⟩
      intro i r hi
      obtain ⟨c, hc, hla⟩ := hpt i _ (h0 i r hi)
      have hc' : toDatetimeCell r.joinDate = some c := hc
      refine ⟨_, hla, rfl, rfl, rfl, rfl, rfl, rfl, rfl, ?_⟩
      intro _
      exact ⟨by simp [hc'], toDatetimeCell_not_raw hc⟩
    · refine ⟨by rw [hp]; exact hlen0, ?_⟩
      intro i r hi
      refine ⟨prepRow (medianOpt (t.rows.filterMap Row.age)) r,
        by rw [hp]; exact h0 i r hi, rfl, rfl, rfl, rfl, rfl, rfl, rfl, ?_⟩
      intro hbt
      rw [hbt] at hb
      exact Bool.noConfusion hb
  have hstepL : lb.length = t.rows.length ∧ ∀ (i : Nat) (r : Row), t.rows[i]? = some r →
      ∃ rb : Row, lb[i]? = some rb ∧
        rb.customerID = r.customerID ∧
        rb.age = (imputeAgeRow (medianOpt (t.rows.filterMap Row.age)) r).age ∧
        rb.monetary = r.monetary ∧
        rb.gender.isSome = true ∧ rb.location.isSome = true ∧
        rb.firstPurchaseDate = r.firstPurchaseDate ∧
        (t.schema.hasJoinDate = true →
          (toDatetimeCell r.joinDate).isSome = true ∧ rb.joinDate.isRaw = false) ∧
        (t.schema.hasLastPurchaseDate = true →
          (toDatetimeCell r.lastPurchaseDate).isSome = true ∧
            rb.lastPurchaseDate.isRaw = false) := by
    obtain ⟨hlenJ, hptJ⟩ := hstepJ
    rcases hLp with ⟨hb, hp⟩ | ⟨hb, hp⟩
    · obtain ⟨hlen, hpt⟩ := parseLastCol_ok_pointwise hp
      refine ⟨by rw [hlen, hlenJ], ?_⟩
      intro i r hi
      obtain ⟨ra, hla, hid, hage, hmon, hgen, hloc, hlast, hfirst, hjoin⟩ := hptJ i r hi
      obtain ⟨c, hc, hlb⟩ := hpt i _ hla
      have hc' : toDatetimeCell r.lastPurchaseDate = some c := by rw [← hlast]; exact hc
      refine ⟨_, hlb, hid, hage, hmon, hgen, hloc, hfirst, ?_, ?_⟩
      · intro hbt
        exact ⟨(hjoin hbt).1, (hjoin hbt).2⟩
      · intro _
        exact ⟨by simp [hc'], toDatetimeCell_not_raw hc⟩
    · refine ⟨by rw [hp, hlenJ], ?_⟩
      intro i r hi
      obtain ⟨ra, hla, hid, hage, hmon, hgen, hloc, hlast, hfirst, hjoin⟩ := hptJ i r hi
      refine ⟨ra, by rw [hp]; exact hla, hid, hage, hmon, hgen, hloc, hfirst, hjoin, ?_⟩
      intro hbt
      rw [hbt] at hb
      exact Bool.noConfusion hb
  obtain ⟨hlenL, hptL⟩ := hstepL
  refine ⟨lc, hrows, ?_, ?_⟩
  · rcases hFp with ⟨hb, hp⟩ | ⟨hb, hp⟩
    · rw [(parseFirstCol_ok_pointwise hp).1, hlenL]
    · rw [hp, hlenL]
  · intro i r hi
    rcases hFp with ⟨hb, hp⟩ | ⟨hb, hp⟩
    · obtain ⟨hlen, hpt⟩ := parseFirstCol_ok_pointwise hp
      obtain ⟨rb, hlb, hid, hage, hmon, hgen, hloc, hfirst, hjoin, hlast⟩ := hptL i r hi
      obtain ⟨c, hc, hlc⟩ := hpt i _ hlb
      have hc' : toDatetimeCell r.firstPurchaseDate = some c := by rw [← hfirst]; exact hc
      refine ⟨_, hlc, hid, hage, hmon, hgen, hloc, ?_, ?_, ?_⟩
      · intro hbt
        exact ⟨(hjoin hbt).1, (hjoin hbt).2⟩
      · intro hbt
        exact ⟨(hlast hbt).1, (hlast hbt).2⟩
      · intro _
        exact ⟨by simp [hc'], toDatetimeCell_not_raw hc⟩
    · obtain ⟨rb, hlb, hid, hage, hmon, hgen, hloc, hfirst, hjoin, hlast⟩ := hptL i r hi
      refine ⟨rb, by rw [hp]; exact hlb, hid, hage, hmon, hgen, hloc, hjoin, hlast, ?_⟩
      intro hbt
      rw [hbt] at hb
      exact Bool.noConfusion hb

/-- C10: `pd.to_datetime` is called with its default error handling, so
one unparseable value in a present date column raises and aborts the
whole cleaning stage; conversely a successful run means every date cell
of a present column parsed — a parse failure is never resolved per-row
by nulling the value out. -/
theorem date_parse_failure_aborts :
    (∀ t t' : Table, clean_data t = .ok t' →
      ∀ r ∈ t.rows,
        (t.schema.hasJoinDate = true → (toDatetimeCell r.joinDate).isSome = true) ∧
        (t.schema.hasLastPurchaseDate = true →
          (toDatetimeCell r.lastPurchaseDate).isSome = true) ∧
        (t.schema.hasFirstPurchaseDate = true →
          (toDatetimeCell r.firstPurchaseDate).isSome = true)) ∧
    (∀ t : Table,
      (∃ r ∈ t.rows,
        (t.schema.hasJoinDate = true ∧ toDatetimeCell r.joinDate = none) ∨
        (t.schema.hasLastPurchaseDate = true ∧ toDatetimeCell r.lastPurchaseDate = none) ∨
        (t.schema.hasFirstPurchaseDate = true ∧ toDatetimeCell r.firstPurchaseDate = none)) →
      ∃ e, clean_data t = .error e) := by
  have hok : ∀ t t' : Table, clean_data t = .ok t' →
      ∀ r ∈ t.rows,
        (t.schema.hasJoinDate = true → (toDatetimeCell r.joinDate).isSome = true) ∧
        (t.schema.hasLastPurchaseDate = true →
          (toDatetimeCell r.lastPurchaseDate).isSome = true) ∧
        (t.schema.hasFirstPurchaseDate = true →
          (toDatetimeCell r.firstPurchaseDate).isSome = true) := by
    intro t t' h r hr
    obtain ⟨lc, _, _, hpt⟩ := clean_pipeline_pointwise h
    obtain ⟨i, hi⟩ := List.mem_iff_getElem?.mp hr
    obtain ⟨rc, _, _, _, _, _, _, hj, hl, hf⟩ := hpt i r hi
    exact ⟨fun hb => (hj hb).1, fun hb => (hl hb).1, fun hb => (hf hb).1⟩
  refine ⟨hok, ?_⟩
  intro t hex
  cases hcd : clean_data t with
  | error e => exact ⟨e, rfl⟩
  | ok t' =>
    exfalso
    obtain ⟨r, hr, hbad⟩ := hex
    obtain ⟨hj, hl, hf⟩ := hok t t' hcd r hr
    rcases hbad with ⟨hb, hn⟩ | ⟨hb, hn⟩ | ⟨hb, hn⟩
    · have := hj hb
      rw [hn] at this
      exact Bool.noConfusion this
    · have := hl hb
      rw [hn] at this
      exact Bool.noConfusion this
    · have := hf hb
      rw [hn] at this
      exact Bool.noConfusion this

/-- C10 witness: a table whose `JoinDate` holds unparseable text makes
`clean_data` raise. -/
theorem date_parse_failure_aborts_witness :
    ∃ e, clean_data tC10 = .error e :=
  date_parse_failure_aborts.2 tC10
    ⟨{ rowA with joinDate := .raw "not a date" }, by decide, Or.inl ⟨rfl, by decide⟩⟩

/-- The capping equation every output row of `clean_data` satisfies:
`Monetary_Capped = min(Monetary, Q3 + 1.5*IQR)` with the quartiles
taken over the deduplicated `Monetary` column (which is exactly the
output `Monetary` column). -/
theorem capped_bound_helper {t t' : Table} (h : clean_data t = .ok t') :
    ∀ r' ∈ t'.rows, ∃ q1 q3 : Rat,
      quantileLinear (t'.rows.map Row.monetary) (mkRat 1 4) = some q1 ∧
      quantileLinear (t'.rows.map Row.monetary) (mkRat 3 4) = some q3 ∧
      r'.monetaryCapped = some (min r'.monetary (q3 + 3 / 2 * (q3 - q1))) := by
  intro r' hr'
  obtain ⟨hA, hG, hL, hC, hM, hsch, la, lb, lc, hJ, hLp, hFp, hrows⟩ := clean_data_ok_elim h
  have hldne : dedupKeepFirst [] lc ≠ [] := by
    intro h0
    rw [hrows, h0] at hr'
    simp [show capRows ([] : List Row) = [] from rfl] at hr'
  have hmne : (dedupKeepFirst [] lc).map Row.monetary ≠ [] := by
    simpa using hldne
  obtain ⟨q1, hq1⟩ := Option.isSome_iff_exists.mp
    (quantileLinear_isSome hmne (by decide : (mkRat 1 4 : Rat) ≤ 1))
  obtain ⟨q3, hq3⟩ := Option.isSome_iff_exists.mp
    (quantileLinear_isSome hmne (by decide : (mkRat 3 4 : Rat) ≤ 1))
  have hqm : t'.rows.map Row.monetary = (dedupKeepFirst [] lc).map Row.monetary := by
    rw [hrows]
    exact capRows_monetary _
  rw [hrows, capRows_eq_of_quant hq1 hq3] at hr'
  obtain ⟨r5, hr5, heq⟩ := List.mem_map.mp hr'
  refine ⟨q1, q3, by rw [hqm]; exact hq1, by rw [hqm]; exact hq3, ?_⟩
  subst heq
  show some (rmin r5.monetary (upperFence q1 q3))
      = some (min r5.monetary (q3 + 3 / 2 * (q3 - q1)))
  rw [rmin_eq, upperFence_eq]

/-- C2: every output row's `Monetary_Capped` is at most the original
`Monetary` and at most the upper fence `Q3 + 1.5*IQR` computed over the
post-dedup `Monetary` column; no lower fence is applied — a value at or
below the upper fence is kept unchanged. -/
theorem monetary_capped_bound {t t' : Table} (h : clean_data t = .ok t') :
    ∀ r' ∈ t'.rows, ∃ q1 q3 : Rat,
      quantileLinear (t'.rows.map Row.monetary) (mkRat 1 4) = some q1 ∧
      quantileLinear (t'.rows.map Row.monetary) (mkRat 3 4) = some q3 ∧
      r'.monetaryCapped = some (min r'.monetary (q3 + 3 / 2 * (q3 - q1))) ∧
      ∀ c : Rat, r'.monetaryCapped = some c →
        c ≤ r'.monetary ∧ c ≤ q3 + 3 / 2 * (q3 - q1) ∧
        (r'.monetary ≤ q3 + 3 / 2 * (q3 - q1) → c = r'.monetary) := by
  intro r' hr'
  obtain ⟨q1, q3, h1, h3, hmin⟩ := capped_bound_helper h r' hr'
  refine ⟨q1, q3, h1, h3, hmin, ?_⟩
  intro c hc
  rw [hmin] at hc
  injection hc with hc2
  rw [← hc2]
  exact ⟨min_le_left _ _, min_le_right _ _, fun hle => min_eq_left hle⟩

theorem monetary_capped_bound_witness :
    clean_data tW = .ok tWout ∧
    ∀ r' ∈ tWout.rows, ∃ q1 q3 : Rat,
      quantileLinear (tWout.rows.map Row.monetary) (mkRat 1 4) = some q1 ∧
      quantileLinear (tWout.rows.map Row.monetary) (mkRat 3 4) = some q3 ∧
      r'.monetaryCapped = some (min r'.monetary (q3 + 3 / 2 * (q3 - q1))) ∧
      ∀ c : Rat, r'.monetaryCapped = some c →
        c ≤ r'.monetary ∧ c ≤ q3 + 3 / 2 * (q3 - q1) ∧
        (r'.monetary ≤ q3 + 3 / 2 * (q3 - q1) → c = r'.monetary) :=
  ⟨by decide, @monetary_capped_bound tW tWout (by decide)⟩

/-- C1: the cleaning steps run in the fixed source order.  Its three
observable consequences: (1) output `CustomerID`s are unique; (2) every
output row descends from the first input row carrying its `CustomerID`
(earlier-indexed rows never share it), and its `Age` is the input age
imputed — when null — with the median taken over ALL input rows,
duplicates included (median before dedup); (3) `Monetary_Capped` uses
quartiles of the post-dedup `Monetary` column (the output column),
applied after dedup. -/
theorem clean_data_fixed_order {t t' : Table} (h : clean_data t = .ok t') :
    (t'.rows.map Row.customerID).Nodup ∧
    (∀ r' ∈ t'.rows, ∃ (i : Nat) (r : Row), t.rows[i]? = some r ∧
        r.customerID = r'.customerID ∧
        (∀ (j : Nat) (r2 : Row), j < i → t.rows[j]? = some r2 →
          r2.customerID ≠ r'.customerID) ∧
        r'.age = (match r.age with
                  | some a => some a
                  | none => medianOpt (t.rows.filterMap Row.age))) ∧
    (∀ r' ∈ t'.rows, ∃ q1 q3 : Rat,
        quantileLinear (t'.rows.map Row.monetary) (mkRat 1 4) = some q1 ∧
        quantileLinear (t'.rows.map Row.monetary) (mkRat 3 4) = some q3 ∧
        r'.monetaryCapped = some (min r'.monetary (q3 + 3 / 2 * (q3 - q1)))) := by
  obtain ⟨lc, hrows, hlen, hpt⟩ := clean_pipeline_pointwise h
  refine ⟨?_, ?_, capped_bound_helper h⟩
  · rw [hrows, capRows_customerID]
    exact dedupKeepFirst_nodup [] lc
  · intro r' hr'
    rw [hrows] at hr'
    obtain ⟨r5, hr5, v, heq⟩ := capRows_mem hr'
    obtain ⟨i, hi5, hfirst5⟩ := dedupKeepFirst_first hr5
    have his : i < lc.length := (List.getElem?_eq_some_iff.mp hi5).1
    have hit : i < t.rows.length := by omega
    have hti : t.rows[i]? = some t.rows[i] := List.getElem?_eq_getElem hit
    obtain ⟨rc, hci, hid, hage, _⟩ := hpt i _ hti
    rw [hci] at hi5
    injection hi5 with h6
    subst h6
    refine ⟨i, t.rows[i], hti, ?_, ?_, ?_⟩
    · rw [heq]
      exact hid.symm
    · intro j r2 hj hj2
      obtain ⟨rcj, hcj, hidj, _⟩ := hpt j r2 hj2
      intro heq2
      rcases hfirst5 j rcj hj hcj with hin | hne
      · simp at hin
      · apply hne
        rw [hidj, heq2, heq]
    · rw [heq]
      exact hage

theorem clean_data_fixed_order_witness :
    clean_data tW = .ok tWout ∧
    ((tWout.rows.map Row.customerID).Nodup ∧
    (∀ r' ∈ tWout.rows, ∃ (i : Nat) (r : Row), tW.rows[i]? = some r ∧
        r.customerID = r'.customerID ∧
        (∀ (j : Nat) (r2 : Row), j < i → tW.rows[j]? = some r2 →
          r2.customerID ≠ r'.customerID) ∧
        r'.age = (match r.age with
                  | some a => some a
                  | none => medianOpt (tW.rows.filterMap Row.age))) ∧
    (∀ r' ∈ tWout.rows, ∃ q1 q3 : Rat,
        quantileLinear (tWout.rows.map Row.monetary) (mkRat 1 4) = some q1 ∧
        quantileLinear (tWout.rows.map Row.monetary) (mkRat 3 4) = some q3 ∧
        r'.monetaryCapped = some (min r'.monetary (q3 + 3 / 2 * (q3 - q1))))) :=
  ⟨by decide, @clean_data_fixed_order tW tWout (by decide)⟩

/-- C7: `clean_data` is idempotent — on any of its own outputs all four
steps are no-ops: ages and categoricals are already imputed, present
date columns already parsed, `CustomerID`s already unique, and
re-capping with the same quartiles rewrites `Monetary_Capped` with the
value it already has. -/
theorem clean_data_idempotent {t t' : Table} (h : clean_data t = .ok t') :
    clean_data t' = .ok t' := by
  obtain ⟨hA, hG, hL, hC, hM, hsch, la0, lb0, lc0, _, _, _, _⟩ := clean_data_ok_elim h
  obtain ⟨lc, hrows2, hlen, hpt⟩ := clean_pipeline_pointwise h
  have hmem : ∀ r' ∈ t'.rows, ∃ (rc : Row) (v : Rat) (i : Nat) (r : Row),
      t.rows[i]? = some r ∧ lc[i]? = some rc ∧
      r' = { rc with monetaryCapped := some v } := by
    intro r' hr'
    rw [hrows2] at hr'
    obtain ⟨r5, hr5, v, heq⟩ := capRows_mem hr'
    have hr5lc : r5 ∈ lc := dedupKeepFirst_subset r5 hr5
    obtain ⟨i, hi⟩ := List.mem_iff_getElem?.mp hr5lc
    have his : i < lc.length := (List.getElem?_eq_some_iff.mp hi).1
    have hit : i < t.rows.length := by omega
    exact ⟨r5, v, i, t.rows[i], List.getElem?_eq_getElem hit, hi, heq⟩
  have hprops : ∀ r' ∈ t'.rows,
      r'.gender.isSome = true ∧ r'.location.isSome = true ∧
      (t.schema.hasJoinDate = true → r'.joinDate.isRaw = false) ∧
      (t.schema.hasLastPurchaseDate = true → r'.lastPurchaseDate.isRaw = false) ∧
      (t.schema.hasFirstPurchaseDate = true → r'.firstPurchaseDate.isRaw = false) ∧
      (∀ w : Rat, medianOpt (t.rows.filterMap Row.age) = some w → r'.age.isSome = true) ∧
      (medianOpt (t.rows.filterMap Row.age) = none → r'.age = none) := by
    intro r' hr'
    obtain ⟨rc, v, i, r, hti, hci, heq⟩ := hmem r' hr'
    obtain ⟨rc2, hci2, hid, hage, hmon, hgen, hloc, hj, hl, hf⟩ := hpt i r hti
    rw [hci2] at hci
    injection hci with h7
    rw [h7] at hage hgen hloc hj hl hf
    subst heq
    refine ⟨hgen, hloc, fun hb => (hj hb).2, fun hb => (hl hb).2, fun hb => (hf hb).2, ?_, ?_⟩
    · intro w hw
      show rc.age.isSome = true
      rw [hage, hw]
      cases hra : r.age with
      | some a => simp [imputeAgeRow, hra]
      | none => simp [imputeAgeRow, hra]
    · intro hw
      show rc.age = none
      have hallnone := List.filterMap_eq_nil_iff.mp (medianOpt_eq_none hw)
      have hra : r.age = none := hallnone r (List.getElem?_mem hti)
      rw [hage, hw]
      simp [imputeAgeRow, hra]
  have hnodup : (t'.rows.map Row.customerID).Nodup := by
    rw [hrows2, capRows_customerID]
    exact dedupKeepFirst_nodup [] lc
  have himp : imputeRows (medianOpt (t'.rows.filterMap Row.age)) t'.rows = t'.rows := by
    cases hm : medianOpt (t.rows.filterMap Row.age) with
    | some w =>
      unfold imputeRows
      refine (List.map_congr_left ?_).trans (List.map_id _)
      intro r' hr'
      refine imputeAgeRow_id (fun hnone => ?_)
      have hs := (hprops r' hr').2.2.2.2.2.1 w hm
      rw [hnone] at hs
      exact absurd hs (by simp)
    | none =>
      have hn' : medianOpt (t'.rows.filterMap Row.age) = none := by
        have h0 : t'.rows.filterMap Row.age = [] :=
          List.filterMap_eq_nil_iff.mpr (fun r' hr' => (hprops r' hr').2.2.2.2.2.2 hm)
        rw [h0]
        rfl
      unfold imputeRows
      refine (List.map_congr_left ?_).trans (List.map_id _)
      intro r' hr'
      exact imputeAgeRow_id (fun _ => hn')
  have hgen : fillGenderRows t'.rows = t'.rows := by
    unfold fillGenderRows
    refine (List.map_congr_left ?_).trans (List.map_id _)
    intro r' hr'
    exact fillGenderRow_id (hprops r' hr').1
  have hloc : fillLocationRows t'.rows = t'.rows := by
    unfold fillLocationRows
    refine (List.map_congr_left ?_).trans (List.map_id _)
    intro r' hr'
    exact fillLocationRow_id (hprops r' hr').2.1
  have hprep : t'.rows.map (prepRow (medianOpt (t'.rows.filterMap Row.age))) = t'.rows := by
    rw [← fills_eq_map_prepRow, himp, hgen, hloc]
  have hJ' : (t'.schema.hasJoinDate = true ∧
        parseJoinCol (t'.rows.map (prepRow (medianOpt (t'.rows.filterMap Row.age))))
          = .ok t'.rows) ∨
      (t'.schema.hasJoinDate = false ∧
        t'.rows = t'.rows.map (prepRow (medianOpt (t'.rows.filterMap Row.age)))) := by
    cases hb : t.schema.hasJoinDate with
    | true =>
      refine Or.inl ⟨by rw [hsch]; exact hb, ?_⟩
      rw [hprep]
      exact parseJoinCol_id (fun r' hr' => (hprops r' hr').2.2.1 hb)
    | false => exact Or.inr ⟨by rw [hsch]; exact hb, hprep.symm⟩
  have hL' : (t'.schema.hasLastPurchaseDate = true ∧ parseLastCol t'.rows = .ok t'.rows) ∨
      (t'.schema.hasLastPurchaseDate = false ∧ t'.rows = t'.rows) := by
    cases hb : t.schema.hasLastPurchaseDate with
    | true =>
      refine Or.inl ⟨by rw [hsch]; exact hb, ?_⟩
      exact parseLastCol_id (fun r' hr' => (hprops r' hr').2.2.2.1 hb)
    | false => exact Or.inr ⟨by rw [hsch]; exact hb, rfl⟩
  have hF' : (t'.schema.hasFirstPurchaseDate = true ∧ parseFirstCol t'.rows = .ok t'.rows) ∨
      (t'.schema.hasFirstPurchaseDate = false ∧ t'.rows = t'.rows) := by
    cases hb : t.schema.hasFirstPurchaseDate with
    | true =>
      refine Or.inl ⟨by rw [hsch]; exact hb, ?_⟩
      exact parseFirstCol_id (fun r' hr' => (hprops r' hr').2.2.2.2.1 hb)
    | false => exact Or.inr ⟨by rw [hsch]; exact hb, rfl⟩
  have hres := clean_data_ok_intro (by rw [hsch]; exact hA) (by rw [hsch]; exact hG)
    (by rw [hsch]; exact hL) (by rw [hsch]; exact hC) (by rw [hsch]; exact hM) hJ' hL' hF'
  rw [dedupKeepFirst_id hnodup [] (fun r _ => List.not_mem_nil _)] at hres
  rw [hrows2, capRows_idem, ← hrows2] at hres
  exact hres

theorem clean_data_idempotent_witness :
    clean_data tW = .ok tWout ∧ clean_data tWout = .ok tWout :=
  ⟨by decide, @clean_data_idempotent tW tWout (by decide)⟩

/-! ### `main` and the boundary faults -/

/-- C4 counterexample: with the connection and fetch succeeding but the
fetched table lacking the required `Age` column, the `KeyError` raised
inside `clean_data` is not caught anywhere and propagates past `main`:
the caller sees a crash, not a clean exit. -/
theorem main_missing_column_crashes : main envD = .error (.keyError "Age") := by decide

/-- C4 amended: a failed connection and a failed fetch are caught and
produce an early clean exit, and a failed CSV write never changes the
run's outcome (`export_to_csv` catches every exception internally);
but a required column absent from the fetched table (here `Age`) raises
an uncaught `KeyError` that propagates past `main`. -/
theorem main_boundary_fault_handling :
    (∀ env : Env, env.connectOk = false → main env = .ok .connFail) ∧
    (∀ env : Env, env.connectOk = true → env.fetchOk = false → main env = .ok .fetchFail) ∧
    (∀ (env : Env) (b : Bool), main env = main { env with writeOk := b }) ∧
    (∀ env : Env, env.connectOk = true → env.fetchOk = true →
      env.fetched.schema.hasAge = false → main env = .error (.keyError "Age")) := by
  refine ⟨?_, ?_, ?_, ?_⟩
  · intro env h
    simp [main, h]
  · intro env h1 h2
    simp [main, h1, h2]
  · intro env b
    rfl
  · intro env h1 h2 h3
    simp [main, h1, h2, clean_data, h3]

theorem main_boundary_fault_handling_witness :
    main envA = .ok .connFail ∧ main envB = .ok .fetchFail ∧
    main envC = main { envC with writeOk := false } ∧
    main envD = .error (.keyError "Age") :=
  ⟨main_boundary_fault_handling.1 envA rfl,
   main_boundary_fault_handling.2.1 envB rfl rfl,
   main_boundary_fault_handling.2.2.1 envC false,
   main_boundary_fault_handling.2.2.2 envD rfl rfl rfl⟩

end CustomerSeg
